import Mathlib

/-!
Shallow embedding of the github-intelligence scraping core
(src/scrapers/github.py and src/scrapers/repo.py) with proofs of the
specified properties.

Conventions of the embedding:
* Python `dict.get(k, d)` on an optional field is modelled with `Option`
  fields and `Option.getD`.
* Fields whose JSON value may be *present but null* (where the Python code
  would then crash, e.g. `None.get(...)`) are modelled with the
  three-valued `JField` type (absent / null / value).
* Exceptions are modelled with `Except`.
* `while` loops are modelled by fuel-indexed recursion; the top-level
  entry points supply fuel that provably suffices.
-/

namespace GitHubIntel

/-! ## Rate governor (GitHubClient.get, src/scrapers/github.py lines 38-52)

The relevant fragment of `GitHubClient.get`:

    remaining = int(response.headers.get("X-RateLimit-Remaining", 60))
    if remaining < 5:
        reset_time = int(response.headers.get("X-RateLimit-Reset", 0))
        wait_time = max(0, reset_time - asyncio.get_event_loop().time())
        if wait_time > 0:
            await asyncio.sleep(wait_time)

`rateHeaders` carries the two header values as the code reads them
(`remaining` defaults to 60 when the header is absent, `reset` to 0);
`rateWait` is the wait the code computes, and `rateSleeps` tells whether
the code suspends (`asyncio.sleep` is reached) at all. -/

structure RateHeaders where
  remaining : Option Int
  reset : Option Int

def readRemaining (h : RateHeaders) : Int := h.remaining.getD 60

def readReset (h : RateHeaders) : Int := h.reset.getD 0

/-- The wait duration computed by `GitHubClient.get` before the next request:
`max(0, reset_time - now)` when the remaining quota is below 5, otherwise no
wait is computed at all (modelled as 0). -/
def rateWait (h : RateHeaders) (now : Int) : Int :=
  if readRemaining h < 5 then max 0 (readReset h - now) else 0

/-- Whether `GitHubClient.get` reaches `asyncio.sleep` for this response. -/
def rateSleeps (h : RateHeaders) (now : Int) : Bool :=
  readRemaining h < 5 && rateWait h now > 0

/-! ## The aggregate `GitHubScraper.get_repo_full` (src/scrapers/repo.py)

    async def get_repo_full(self, owner, repo):
        repo_data = await self.get_repo(owner, repo)
        contributors = await self.get_contributors(owner, repo)
        issues = await self.get_issues(owner, repo)
        languages = await self.get_languages(owner, repo)
        return {"repo": ..., "contributors": ..., "issues": ..., "languages": ...}

Each sub-fetch may raise; an exception propagates immediately, so the
composite dict is built only when all four sub-fetches succeed.  The four
sub-fetches are modelled as `Except`-valued inputs, sequenced in source
order. -/

inductive ScrapeError
  | networkError
  | httpError (status : Nat)
  | valueError
  | attributeError
  | typeError
  | validationError
  deriving DecidableEq, Repr

structure Composite (ρ γ ι lng : Type) where
  repo : ρ
  contributors : γ
  issues : ι
  languages : lng
  deriving DecidableEq, Repr

def get_repo_full {ρ γ ι lng : Type}
    (fetchRepo : Except ScrapeError ρ)
    (fetchContributors : Except ScrapeError γ)
    (fetchIssues : Except ScrapeError ι)
    (fetchLanguages : Except ScrapeError lng) :
    Except ScrapeError (Composite ρ γ ι lng) := do
  let repoData ← fetchRepo
  let contributors ← fetchContributors
  let issues ← fetchIssues
  let languages ← fetchLanguages
  return ⟨repoData, contributors, issues, languages⟩

/-! ## `scrape_repo` (src/scrapers/repo.py lines 175-179)

    async def scrape_repo(full_name: str) -> Repository:
        owner, repo = full_name.split("/")
        async with GitHubScraper() as scraper:
            return await scraper.get_repo(owner, repo)

Python's `s.split("/")` splits at every occurrence of `/` and keeps empty
pieces; the two-target unpacking raises `ValueError` unless the result has
exactly two elements.  The split happens before the scraper (and hence any
network activity) exists, so on a `ValueError` the `fetch` function is
never consulted. -/

def splitSlash : List Char → List (List Char)
  | [] => [[]]
  | c :: cs =>
    let rest := splitSlash cs
    if c = '/' then [] :: rest
    else
      match rest with
      | [] => [[c]]
      | p :: ps => (c :: p) :: ps

/-- `full_name.split("/")` as a list of strings. -/
def pySplitSlash (s : String) : List String :=
  (splitSlash s.data).map (fun cs => String.mk cs)

/-- `scrape_repo`, with the network part abstracted as `fetch`:
unpack the split result into `(owner, repo)` (raising `ValueError`
otherwise), then delegate to the scraper's `get_repo`. -/
def scrape_repo {ρ : Type} (fetch : String → String → Except ScrapeError ρ)
    (full_name : String) : Except ScrapeError ρ :=
  match pySplitSlash full_name with
  | [owner, repo] => fetch owner repo
  | _ => .error .valueError

/-! ## Pagination walks (GitHubClient, src/scrapers/github.py)

Three pagination loops appear in `GitHubClient`:

    async def search_repos(self, query, sort="stars", per_page=100):
        all_repos = []; page = 1
        while len(all_repos) < per_page:
            response = await self.get(..., params={...,
                "per_page": min(100, per_page - len(all_repos)), "page": page})
            items = response.json().get("items", [])
            if not items: break
            all_repos.extend(items); page += 1
            if len(items) < 100: break
        return all_repos

    async def get_user_repos(self, username, sort="updated"):
        repos = []; page = 1
        while len(repos) < 100:
            response = await self.get(..., params={"per_page": 100, "page": page, ...})
            items = response.json()
            if not items: break
            repos.extend(items); page += 1
        return repos

    async def get_contributors(self, owner, repo):   # same loop as get_user_repos

The transport is abstracted as `respond : perPage → page → items`.  The
embedding additionally records every request issued (its page number, its
`per_page` parameter and the number of items accumulated when it was
issued); the log is returned alongside the accumulated items and does not
influence them.  The loops are fuel-indexed; the entry points supply fuel
`cap + 1`, which suffices because each continuing iteration strictly grows
the accumulator while the guard requires its length to stay below `cap`. -/

structure PageReq where
  page : Nat
  perPage : Nat
  accBefore : Nat
  deriving DecidableEq, Repr

/-- The `while` loop of `search_repos`: `cap` is the `per_page` argument of
the Python function (the caller's cap), the literal `100` the page size. -/
def searchReposGo {α : Type} (respond : Nat → Nat → List α) (cap : Nat) :
    Nat → List α → Nat → List α × List PageReq
  | 0, acc, _ => (acc, [])
  | fuel + 1, acc, page =>
    if acc.length < cap then
      let pp := min 100 (cap - acc.length)
      let items := respond pp page
      let req : PageReq := ⟨page, pp, acc.length⟩
      if items.isEmpty then (acc, [req])
      else if items.length < 100 then (acc ++ items, [req])
      else
        let next := searchReposGo respond cap fuel (acc ++ items) (page + 1)
        (next.1, req :: next.2)
    else (acc, [])

def search_repos {α : Type} (respond : Nat → Nat → List α) (cap : Nat) :
    List α × List PageReq :=
  searchReposGo respond cap (cap + 1) [] 1

/-- The shared `while` loop of `get_user_repos` and `get_contributors`:
every request carries the fixed `per_page = 100`, and there is no
short-page break — only an empty page or `cap` accumulated items stop it. -/
def fixedPageGo {α : Type} (respond : Nat → Nat → List α) (cap : Nat) :
    Nat → List α → Nat → List α × List PageReq
  | 0, acc, _ => (acc, [])
  | fuel + 1, acc, page =>
    if acc.length < cap then
      let items := respond 100 page
      let req : PageReq := ⟨page, 100, acc.length⟩
      if items.isEmpty then (acc, [req])
      else
        let next := fixedPageGo respond cap fuel (acc ++ items) (page + 1)
        (next.1, req :: next.2)
    else (acc, [])

def get_user_repos {α : Type} (respond : Nat → Nat → List α) :
    List α × List PageReq :=
  fixedPageGo respond 100 (100 + 1) [] 1

def get_contributors {α : Type} (respond : Nat → Nat → List α) :
    List α × List PageReq :=
  fixedPageGo respond 100 (100 + 1) [] 1

/-- A server whose page 1 holds 60 items and page 2 holds 100 items,
ignoring the requested `per_page` (used to exhibit the fixed-`per_page`
loops overshooting their cap). -/
def overshootRespond : Nat → Nat → List Nat :=
  fun _ page => if page = 1 then List.range 60 else if page = 2 then List.range 100 else []

/-- A server whose page 1 holds 60 items and every later page is empty
(a short first page followed by exhaustion). -/
def shortPageRespond : Nat → Nat → List Nat :=
  fun _ page => if page = 1 then List.range 60 else []

/-- A well-behaved server: never returns more items than requested
(page 1 holds `min perPage 3` items, later pages are empty). -/
def boundedRespond : Nat → Nat → List Nat :=
  fun perPage page => if page = 1 then List.range (min perPage 3) else []

/-! ## Endpoint mappers (GitHubScraper, src/scrapers/repo.py)

A JSON object field is `absent`, present-but-`null`, or a `val`ue.
Python's `d.get(k, default)` yields the default only when the key is
absent; a null value is passed through and makes the surrounding code
fail later (pydantic rejects `None` for a non-`Optional` field;
`None.get(...)` raises `AttributeError`; iterating `None` raises
`TypeError`). -/

inductive JField (α : Type)
  | absent
  | null
  | val (a : α)
  deriving DecidableEq, Repr

/-- `raw.get(k, d)` fed into a non-`Optional` pydantic field: the default
for an absent key, a `ValidationError` for a null value. -/
def jgetD {α : Type} : JField α → α → Except ScrapeError α
  | .absent, d => .ok d
  | .null, _ => .error .validationError
  | .val a, _ => .ok a

/-- `f` is not present-but-null. -/
def notNull {α : Type} : JField α → Bool
  | .null => false
  | _ => true

namespace GitHubScraper

/-! ### `get_repo` (repo.py lines 81-104)

    return Repository(
        name=data.get("name", ""), full_name=data.get("full_name", ""),
        owner=owner, description=data.get("description", ""),
        stars=data.get("stargazers_count", 0), forks=data.get("forks_count", 0),
        watchers=data.get("watchers_count", 0),
        open_issues=data.get("open_issues_count", 0),
        language=data.get("language"),
        license=data.get("license", {}).get("name") if data.get("license") else None,
        topics=data.get("topics", []), created_at=data.get("created_at", ""),
        updated_at=data.get("updated_at", ""), pushed_at=data.get("pushed_at", ""),
        url=data.get("html_url", ""))

Only absence-vs-value matters to the claims about this mapper, so its raw
payload is modelled with `Option` fields; a present license object is
truthy and its `name` key may itself be absent. -/

structure LicenseObj where
  name : Option String
  deriving DecidableEq, Repr

structure RawRepoData where
  name : Option String
  full_name : Option String
  description : Option String
  stargazers_count : Option Int
  forks_count : Option Int
  watchers_count : Option Int
  open_issues_count : Option Int
  language : Option String
  license : Option LicenseObj
  topics : Option (List String)
  created_at : Option String
  updated_at : Option String
  pushed_at : Option String
  html_url : Option String
  deriving DecidableEq, Repr

structure Repository where
  name : String
  full_name : String
  owner : String
  description : String
  stars : Int
  forks : Int
  watchers : Int
  open_issues : Int
  language : Option String
  license : Option String
  topics : List String
  created_at : String
  updated_at : String
  pushed_at : String
  url : String
  deriving DecidableEq, Repr

/-- The record construction performed by `GitHubScraper.get_repo`. -/
def get_repo (owner : String) (data : RawRepoData) : Repository :=
  { name := data.name.getD ""
    full_name := data.full_name.getD ""
    owner := owner
    description := data.description.getD ""
    stars := data.stargazers_count.getD 0
    forks := data.forks_count.getD 0
    watchers := data.watchers_count.getD 0
    open_issues := data.open_issues_count.getD 0
    language := data.language
    license := match data.license with
      | some l => l.name
      | none => none
    topics := data.topics.getD []
    created_at := data.created_at.getD ""
    updated_at := data.updated_at.getD ""
    pushed_at := data.pushed_at.getD ""
    url := data.html_url.getD "" }

/-- The payload of the spec's end-to-end repository scenario. -/
def reactPayload : RawRepoData :=
  { name := some "react"
    full_name := some "facebook/react"
    description := none
    stargazers_count := some 220000
    forks_count := none
    watchers_count := none
    open_issues_count := none
    language := some "JavaScript"
    license := none
    topics := some ["ui", "react"]
    created_at := none
    updated_at := none
    pushed_at := none
    html_url := none }

/-- A payload with every optional field absent. -/
def emptyPayload : RawRepoData :=
  { name := none, full_name := none, description := none
    stargazers_count := none, forks_count := none, watchers_count := none
    open_issues_count := none, language := none, license := none
    topics := none, created_at := none, updated_at := none
    pushed_at := none, html_url := none }

/-- A payload carrying a negative star count. -/
def negStarsPayload : RawRepoData :=
  { emptyPayload with stargazers_count := some (-5) }

/-! ### `get_contributors` mapping (repo.py lines 106-120)

    for c in response.json():
        contributors.append(Contributor(
            login=c.get("login", ""), avatar_url=c.get("avatar_url", ""),
            contributions=c.get("contributions", 0), url=c.get("html_url", "")))

An exception raised while mapping one item propagates out of the loop, so
the caller receives no list at all. -/

structure RawContributor where
  login : JField String
  avatar_url : JField String
  contributions : JField Int
  html_url : JField String
  deriving DecidableEq, Repr

structure Contributor where
  login : String
  avatar_url : String
  contributions : Int
  url : String
  deriving DecidableEq, Repr

def mapContributor (c : RawContributor) : Except ScrapeError Contributor :=
  match jgetD c.login "" with
  | .error e => .error e
  | .ok login =>
    match jgetD c.avatar_url "" with
    | .error e => .error e
    | .ok avatar =>
      match jgetD c.contributions 0 with
      | .error e => .error e
      | .ok contributions =>
        match jgetD c.html_url "" with
        | .error e => .error e
        | .ok url => .ok ⟨login, avatar, contributions, url⟩

def get_contributors : List RawContributor → Except ScrapeError (List Contributor)
  | [] => .ok []
  | c :: rest =>
    match mapContributor c with
    | .error e => .error e
    | .ok r =>
      match get_contributors rest with
      | .error e => .error e
      | .ok rs => .ok (r :: rs)

/-- A contributor item that only omits fields. -/
def benignContributor (c : RawContributor) : Bool :=
  notNull c.login && notNull c.avatar_url && notNull c.contributions && notNull c.html_url

/-! ### `get_issues` mapping (repo.py lines 122-143)

    for i in response.json():
        if i.get("pull_request"):
            continue
        issues.append(Issue(
            number=i.get("number", 0), title=i.get("title", ""),
            state=i.get("state", ""),
            author=i.get("user", {}).get("login", ""),
            created_at=i.get("created_at", ""), closed_at=i.get("closed_at"),
            labels=[l.get("name", "") for l in i.get("labels", [])],
            comments=i.get("comments", 0)))

`i.get("user", {})` yields `{}` only for an *absent* user key; a null user
is passed through and `None.get("login", "")` raises `AttributeError`.
Likewise a null labels value raises `TypeError` when iterated.  The
`pull_request` truth test is falsy for an absent or null key and truthy
for a (non-empty) marker object, modelled as `val ()`. -/

structure RawUser where
  login : JField String
  deriving DecidableEq, Repr

structure RawLabel where
  name : JField String
  deriving DecidableEq, Repr

structure RawIssue where
  number : JField Int
  title : JField String
  state : JField String
  user : JField RawUser
  created_at : JField String
  closed_at : JField String
  labels : JField (List RawLabel)
  comments : JField Int
  pull_request : JField Unit
  deriving DecidableEq, Repr

structure Issue where
  number : Int
  title : String
  state : String
  author : String
  created_at : String
  closed_at : Option String
  labels : List String
  comments : Int
  deriving DecidableEq, Repr

/-- `i.get("user", {}).get("login", "")`. -/
def userLogin : JField RawUser → Except ScrapeError String
  | .absent => .ok ""
  | .null => .error .attributeError
  | .val u => jgetD u.login ""

/-- `i.get("closed_at")` feeding the `Optional[str]` field: never fails. -/
def closedAtOf : JField String → Option String
  | .absent => none
  | .null => none
  | .val s => some s

def labelNamesList : List RawLabel → Except ScrapeError (List String)
  | [] => .ok []
  | l :: rest =>
    match jgetD l.name "" with
    | .error e => .error e
    | .ok n =>
      match labelNamesList rest with
      | .error e => .error e
      | .ok ns => .ok (n :: ns)

/-- `[l.get("name", "") for l in i.get("labels", [])]`. -/
def labelNames : JField (List RawLabel) → Except ScrapeError (List String)
  | .absent => .ok []
  | .null => .error .typeError
  | .val ls => labelNamesList ls

/-- `if i.get("pull_request"):` — the truthiness test on the marker. -/
def isPR (i : RawIssue) : Bool :=
  match i.pull_request with
  | .val _ => true
  | _ => false

def mapIssue (i : RawIssue) : Except ScrapeError Issue :=
  match jgetD i.number 0 with
  | .error e => .error e
  | .ok number =>
    match jgetD i.title "" with
    | .error e => .error e
    | .ok title =>
      match jgetD i.state "" with
      | .error e => .error e
      | .ok state =>
        match userLogin i.user with
        | .error e => .error e
        | .ok author =>
          match jgetD i.created_at "" with
          | .error e => .error e
          | .ok created =>
            match labelNames i.labels with
            | .error e => .error e
            | .ok labels =>
              match jgetD i.comments 0 with
              | .error e => .error e
              | .ok comments =>
                .ok ⟨number, title, state, author, created,
                     closedAtOf i.closed_at, labels, comments⟩

def get_issues : List RawIssue → Except ScrapeError (List Issue)
  | [] => .ok []
  | i :: rest =>
    if isPR i then get_issues rest
    else
      match mapIssue i with
      | .error e => .error e
      | .ok r =>
        match get_issues rest with
        | .error e => .error e
        | .ok rs => .ok (r :: rs)

/-- The user field positions the issue-mapping code can absorb: an absent
user key yields `{}` (hence the default login), a value is consulted for
its own possibly-absent login; a null user raises. -/
def benignUserField : JField RawUser → Bool
  | .null => false
  | .absent => true
  | .val u => notNull u.login

/-- The labels positions the issue-mapping code can absorb: absent yields
`[]`, a value list is consulted per label name; a null labels value
raises. -/
def benignLabelsField : JField (List RawLabel) → Bool
  | .null => false
  | .absent => true
  | .val ls => ls.all (fun l => notNull l.name)

/-- An issue item that only omits fields (no null in a position the code
cannot absorb); `closed_at` may be anything since it feeds an
`Optional` field. -/
def benignIssue (i : RawIssue) : Bool :=
  notNull i.number && notNull i.title && notNull i.state &&
  benignUserField i.user && notNull i.created_at &&
  benignLabelsField i.labels && notNull i.comments

/-- An issue item with every field absent. -/
def allAbsentIssue : RawIssue :=
  { number := .absent, title := .absent, state := .absent, user := .absent
    created_at := .absent, closed_at := .absent, labels := .absent
    comments := .absent, pull_request := .absent }

/-- An issue item whose `user` key is present but null. -/
def nullUserIssue : RawIssue :=
  { allAbsentIssue with user := .null }

/-- A pull-request item (carries the marker). -/
def prIssue : RawIssue :=
  { allAbsentIssue with pull_request := .val (), number := .val 7 }

end GitHubScraper

/-! ## `analyze_user` (src/scrapers/github.py lines 165-200)

    total_stars = sum(r.get("stargazers_count", 0) for r in repos)
    total_forks = sum(r.get("forks_count", 0) for r in repos)
    languages = {}
    for repo in repos:
        lang = repo.get("language")
        if lang:
            languages[lang] = languages.get(lang, 0) + 1
    return { ..., "top_repos": sorted(
        repos, key=lambda r: r.get("stargazers_count", 0), reverse=True)[:10] }

The raw repository dicts are modelled by the fields `analyze_user`
consults.  The language dict is modelled as an insertion-ordered
association list (`bumpLang` updates in place or appends, exactly like
`languages[lang] = languages.get(lang, 0) + 1`); note `if lang:` is
Python truthiness, so a present-but-empty language string is also
skipped.  `sorted(..., reverse=True)` is a stable sort: descending by
key, ties kept in original order; it is modelled by the insertion sort
`sortStarsDesc`, which inserts each element (left to right) behind every
already-placed element of greater-or-equal key. -/

structure RawUserRepo where
  stargazers_count : Option Int
  forks_count : Option Int
  language : Option String
  deriving DecidableEq, Repr

structure UserProfile where
  name : Option String
  bio : Option String
  followers : Option Int
  following : Option Int
  public_repos : Option Int
  deriving DecidableEq, Repr

/-- `r.get("stargazers_count", 0)`. -/
def rStars (r : RawUserRepo) : Int := r.stargazers_count.getD 0

/-- `r.get("forks_count", 0)`. -/
def rForks (r : RawUserRepo) : Int := r.forks_count.getD 0

/-- `languages[lang] = languages.get(lang, 0) + 1` on an insertion-ordered
dict. -/
def bumpLang : List (String × Nat) → String → List (String × Nat)
  | [], l => [(l, 1)]
  | (k, v) :: rest, l => if k = l then (k, v + 1) :: rest else (k, v) :: bumpLang rest l

/-- The histogram-building loop of `analyze_user`. -/
def buildLanguages : List RawUserRepo → List (String × Nat) → List (String × Nat)
  | [], m => m
  | r :: rest, m =>
    match r.language with
    | none => buildLanguages rest m
    | some l => if l = "" then buildLanguages rest m else buildLanguages rest (bumpLang m l)

/-- Dict lookup with default 0 (`languages.get(lang, 0)` semantics). -/
def histCount : List (String × Nat) → String → Nat
  | [], _ => 0
  | (k, v) :: rest, l => if k = l then v else histCount rest l

/-- Insert behind every element of greater-or-equal star key (the placement
CPython's stable `sorted(..., reverse=True)` gives a newly considered,
originally-later element). -/
def insertDesc (x : RawUserRepo) : List RawUserRepo → List RawUserRepo
  | [] => [x]
  | y :: ys => if rStars x ≤ rStars y then y :: insertDesc x ys else x :: y :: ys

def sortAux : List RawUserRepo → List RawUserRepo → List RawUserRepo
  | [], acc => acc
  | x :: xs, acc => sortAux xs (insertDesc x acc)

/-- `sorted(repos, key=lambda r: r.get("stargazers_count", 0), reverse=True)`. -/
def sortStarsDesc (l : List RawUserRepo) : List RawUserRepo := sortAux l []

structure UserAnalysis where
  username : String
  name : Option String
  bio : Option String
  followers : Option Int
  following : Option Int
  public_repos : Option Int
  total_stars : Int
  total_forks : Int
  languages : List (String × Nat)
  top_repos : List RawUserRepo
  deriving DecidableEq, Repr

/-- The analysis dict assembled by `analyze_user` (profile fetch and repo
listing supplied as inputs). -/
def analyze_user (username : String) (user : UserProfile)
    (repos : List RawUserRepo) : UserAnalysis :=
  { username := username
    name := user.name
    bio := user.bio
    followers := user.followers
    following := user.following
    public_repos := user.public_repos
    total_stars := (repos.map rStars).sum
    total_forks := (repos.map rForks).sum
    languages := buildLanguages repos []
    top_repos := (sortStarsDesc repos).take 10 }

/-- The repo listing of the spec's end-to-end user scenario. -/
def sampleRepos : List RawUserRepo :=
  [⟨some 10, none, some "Go"⟩, ⟨some 5, none, some "Go"⟩, ⟨some 0, none, none⟩]

def sampleUser : UserProfile :=
  ⟨none, none, none, none, none⟩

/-! ## Supporting lemmas -/

theorem splitSlash_ne_nil (cs : List Char) : splitSlash cs ≠ [] := by
  induction cs with
  | nil => simp [splitSlash]
  | cons c cs ih =>
    simp only [splitSlash]
    by_cases hc : c = '/'
    · simp [hc]
    · simp only [hc, if_false]
      cases h : splitSlash cs with
      | nil => exact absurd h ih
      | cons p ps => simp

theorem splitSlash_length (cs : List Char) :
    (splitSlash cs).length = cs.count '/' + 1 := by
  induction cs with
  | nil => simp [splitSlash]
  | cons c cs ih =>
    simp only [splitSlash]
    by_cases hc : c = '/'
    · subst hc
      simp [List.count_cons, ih]
    · simp only [hc, if_false]
      cases h : splitSlash cs with
      | nil => exact absurd h (splitSlash_ne_nil cs)
      | cons p ps =>
        rw [h] at ih
        simp only [List.length_cons] at ih ⊢
        rw [List.count_cons]
        simp [hc, ih]

theorem optGetD_nonneg {o : Option Int} (h : ∀ x ∈ o, 0 ≤ x) : 0 ≤ o.getD 0 := by
  cases o with
  | none => simp
  | some x => exact h x rfl

theorem searchReposGo_log {α : Type} (respond : Nat → Nat → List α) (cap : Nat) :
    ∀ fuel acc page, ∀ r ∈ (searchReposGo respond cap fuel acc page).2,
      r.perPage = min 100 (cap - r.accBefore) := by
  intro fuel
  induction fuel with
  | zero => intro acc page r hr; simp [searchReposGo] at hr
  | succ n ih =>
    intro acc page r hr
    simp only [searchReposGo] at hr
    by_cases hlt : acc.length < cap
    · rw [if_pos hlt] at hr
      by_cases hemp : (respond (min 100 (cap - acc.length)) page).isEmpty = true
      · rw [if_pos hemp] at hr
        simp only [List.mem_singleton] at hr
        subst hr
        rfl
      · rw [if_neg hemp] at hr
        by_cases hshort : (respond (min 100 (cap - acc.length)) page).length < 100
        · rw [if_pos hshort] at hr
          simp only [List.mem_singleton] at hr
          subst hr
          rfl
        · rw [if_neg hshort] at hr
          simp only [List.mem_cons] at hr
          rcases hr with hr | hr
          · subst hr; rfl
          · exact ih _ _ r hr
    · rw [if_neg hlt] at hr
      simp at hr

theorem searchReposGo_len {α : Type} (respond : Nat → Nat → List α) (cap : Nat)
    (hresp : ∀ pp pg, (respond pp pg).length ≤ pp) :
    ∀ fuel acc page, acc.length ≤ cap →
      (searchReposGo respond cap fuel acc page).1.length ≤ cap := by
  intro fuel
  induction fuel with
  | zero => intro acc page hacc; simpa [searchReposGo] using hacc
  | succ n ih =>
    intro acc page hacc
    simp only [searchReposGo]
    by_cases hlt : acc.length < cap
    · rw [if_pos hlt]
      have hbound := hresp (min 100 (cap - acc.length)) page
      have hfit : acc.length + (respond (min 100 (cap - acc.length)) page).length ≤ cap := by
        have : min 100 (cap - acc.length) ≤ cap - acc.length := min_le_right _ _
        omega
      by_cases hemp : (respond (min 100 (cap - acc.length)) page).isEmpty = true
      · rw [if_pos hemp]; exact hacc
      · rw [if_neg hemp]
        by_cases hshort : (respond (min 100 (cap - acc.length)) page).length < 100
        · rw [if_pos hshort]
          simpa using hfit
        · rw [if_neg hshort]
          exact ih _ _ (by simpa using hfit)
    · rw [if_neg hlt]; exact hacc

theorem fixedPageGo_log {α : Type} (respond : Nat → Nat → List α) (cap : Nat) :
    ∀ fuel acc page, ∀ r ∈ (fixedPageGo respond cap fuel acc page).2,
      r.perPage = 100 := by
  intro fuel
  induction fuel with
  | zero => intro acc page r hr; simp [fixedPageGo] at hr
  | succ n ih =>
    intro acc page r hr
    simp only [fixedPageGo] at hr
    by_cases hlt : acc.length < cap
    · rw [if_pos hlt] at hr
      by_cases hemp : (respond 100 page).isEmpty = true
      · rw [if_pos hemp] at hr
        simp only [List.mem_singleton] at hr
        subst hr
        rfl
      · rw [if_neg hemp] at hr
        simp only [List.mem_cons] at hr
        rcases hr with hr | hr
        · subst hr; rfl
        · exact ih _ _ r hr
    · rw [if_neg hlt] at hr
      simp at hr

/-- Two-iteration unfolding of the fixed-`per_page` loop: a non-empty first
page below the cap followed by an empty page yields exactly the two logged
requests and the first page's items. -/
theorem fixedPageGo_two_pages {α : Type} (respond : Nat → Nat → List α)
    (cap f page : Nat) (acc : List α)
    (hlt : acc.length < cap)
    (hne : (respond 100 page).isEmpty = false)
    (hlt2 : (acc ++ respond 100 page).length < cap)
    (hempty2 : (respond 100 (page + 1)).isEmpty = true) :
    fixedPageGo respond cap ((f + 1) + 1) acc page
      = (acc ++ respond 100 page,
         [⟨page, 100, acc.length⟩,
          ⟨page + 1, 100, (acc ++ respond 100 page).length⟩]) := by
  simp only [fixedPageGo]
  rw [if_pos hlt, if_neg (by simp [hne]), if_pos hlt2, if_pos hempty2]

theorem jgetD_ok {α : Type} {f : JField α} (d : α) (h : notNull f = true) :
    ∃ a, jgetD f d = .ok a := by
  cases f with
  | absent => exact ⟨d, rfl⟩
  | null => simp [notNull] at h
  | val a => exact ⟨a, rfl⟩

theorem userLogin_ok {u : JField GitHubScraper.RawUser}
    (h : GitHubScraper.benignUserField u = true) :
    ∃ s, GitHubScraper.userLogin u = .ok s := by
  cases u with
  | absent => exact ⟨"", rfl⟩
  | null => simp [GitHubScraper.benignUserField] at h
  | val u' => exact jgetD_ok "" h

theorem labelNamesList_ok {ls : List GitHubScraper.RawLabel}
    (h : ls.all (fun l => notNull l.name) = true) :
    ∃ ns, GitHubScraper.labelNamesList ls = .ok ns := by
  induction ls with
  | nil => exact ⟨[], rfl⟩
  | cons l rest ih =>
    simp only [List.all_cons, Bool.and_eq_true] at h
    obtain ⟨n, hn⟩ := jgetD_ok "" h.1
    obtain ⟨ns, hns⟩ := ih h.2
    exact ⟨n :: ns, by simp [GitHubScraper.labelNamesList, hn, hns]⟩

theorem labelNames_ok {f : JField (List GitHubScraper.RawLabel)}
    (h : GitHubScraper.benignLabelsField f = true) :
    ∃ ns, GitHubScraper.labelNames f = .ok ns := by
  cases f with
  | absent => exact ⟨[], rfl⟩
  | null => simp [GitHubScraper.benignLabelsField] at h
  | val ls => exact labelNamesList_ok h

theorem mapIssue_ok {i : GitHubScraper.RawIssue}
    (h : GitHubScraper.benignIssue i = true) :
    ∃ r, GitHubScraper.mapIssue i = .ok r := by
  simp only [GitHubScraper.benignIssue, Bool.and_eq_true] at h
  obtain ⟨⟨⟨⟨⟨⟨h1, h2⟩, h3⟩, h4⟩, h5⟩, h6⟩, h7⟩ := h
  obtain ⟨number, hn⟩ := jgetD_ok (0 : Int) h1
  obtain ⟨title, ht⟩ := jgetD_ok "" h2
  obtain ⟨state, hs⟩ := jgetD_ok "" h3
  obtain ⟨author, ha⟩ := userLogin_ok h4
  obtain ⟨created, hc⟩ := jgetD_ok "" h5
  obtain ⟨labels, hl⟩ := labelNames_ok h6
  obtain ⟨comments, hm⟩ := jgetD_ok (0 : Int) h7
  exact ⟨⟨number, title, state, author, created,
          GitHubScraper.closedAtOf i.closed_at, labels, comments⟩,
    by simp [GitHubScraper.mapIssue, hn, ht, hs, ha, hc, hl, hm]⟩

theorem mapContributor_ok {c : GitHubScraper.RawContributor}
    (h : GitHubScraper.benignContributor c = true) :
    ∃ r, GitHubScraper.mapContributor c = .ok r := by
  simp only [GitHubScraper.benignContributor, Bool.and_eq_true] at h
  obtain ⟨⟨⟨h1, h2⟩, h3⟩, h4⟩ := h
  obtain ⟨login, hl⟩ := jgetD_ok "" h1
  obtain ⟨avatar, ha⟩ := jgetD_ok "" h2
  obtain ⟨contributions, hc⟩ := jgetD_ok (0 : Int) h3
  obtain ⟨url, hu⟩ := jgetD_ok "" h4
  exact ⟨⟨login, avatar, contributions, url⟩,
    by simp [GitHubScraper.mapContributor, hl, ha, hc, hu]⟩

theorem get_contributors_all_ok {raw : List GitHubScraper.RawContributor}
    (h : ∀ c ∈ raw, GitHubScraper.benignContributor c = true) :
    ∃ out, GitHubScraper.get_contributors raw = .ok out ∧
      out.length = raw.length := by
  induction raw with
  | nil => exact ⟨[], rfl, rfl⟩
  | cons c rest ih =>
    obtain ⟨r, hr⟩ := mapContributor_ok (h c (List.mem_cons_self c rest))
    obtain ⟨rs, hrs, hlen⟩ := ih (fun c' hc' => h c' (List.mem_cons_of_mem c hc'))
    refine ⟨r :: rs, ?_, by simp [hlen]⟩
    simp [GitHubScraper.get_contributors, hr, hrs]

theorem get_issues_all_ok {raw : List GitHubScraper.RawIssue}
    (h : ∀ i ∈ raw, GitHubScraper.isPR i = true ∨ GitHubScraper.benignIssue i = true) :
    ∃ out, GitHubScraper.get_issues raw = .ok out := by
  induction raw with
  | nil => exact ⟨[], rfl⟩
  | cons i rest ih =>
    obtain ⟨rs, hrs⟩ := ih (fun i' hi' => h i' (List.mem_cons_of_mem i hi'))
    by_cases hpr : GitHubScraper.isPR i = true
    · exact ⟨rs, by simp [GitHubScraper.get_issues, hpr, hrs]⟩
    · rcases h i (List.mem_cons_self i rest) with hp | hb
      · exact absurd hp hpr
      · obtain ⟨r, hr⟩ := mapIssue_ok hb
        exact ⟨r :: rs, by simp [GitHubScraper.get_issues, hpr, hr, hrs]⟩

theorem histCount_bumpLang (m : List (String × Nat)) (k l : String) :
    histCount (bumpLang m k) l
      = if k = l then histCount m l + 1 else histCount m l := by
  induction m with
  | nil =>
    by_cases h : k = l <;> simp [bumpLang, histCount, h]
  | cons p rest ih =>
    obtain ⟨k', v⟩ := p
    by_cases hk : k' = k
    · subst hk
      by_cases hl : k' = l <;> simp [bumpLang, histCount, hl]
    · by_cases hl : k' = l
      · subst hl
        have : ¬ k = k' := fun h => hk h.symm
        simp [bumpLang, histCount, hk, this]
      · simp [bumpLang, histCount, hk, hl, ih]

theorem histCount_buildLanguages (repos : List RawUserRepo) (l : String)
    (hl : l ≠ "") :
    ∀ m, histCount (buildLanguages repos m) l
      = histCount m l + repos.countP (fun r => r.language == some l) := by
  induction repos with
  | nil => intro m; simp [buildLanguages]
  | cons r rest ih =>
    intro m
    cases hlang : r.language with
    | none =>
      simp only [buildLanguages, hlang, List.countP_cons, hlang]
      simp [ih m]
    | some s =>
      by_cases hs : s = ""
      · subst hs
        have hne : (r.language == some l) = false := by
          have hnel : r.language ≠ some l := by
            rw [hlang]
            intro hcontra
            exact hl (Option.some.inj hcontra).symm
          simpa using hnel
        simp only [buildLanguages, hlang, if_pos rfl, List.countP_cons, hne]
        simp [ih m]
        exact fun hcontra => hl hcontra.symm
      · simp only [buildLanguages, hlang, if_neg hs, List.countP_cons]
        rw [ih (bumpLang m s), histCount_bumpLang]
        by_cases hsl : s = l
        · subst hsl
          simp [hlang]
          omega
        · have hne : ¬ ((r.language == some l) = true) := by
            simp [hlang, hsl]
          simp [hsl, hne]

theorem insertDesc_perm (x : RawUserRepo) (l : List RawUserRepo) :
    (insertDesc x l).Perm (x :: l) := by
  induction l with
  | nil => exact List.Perm.refl _
  | cons y ys ih =>
    simp only [insertDesc]
    by_cases h : rStars x ≤ rStars y
    · rw [if_pos h]
      exact (ih.cons y).trans (List.Perm.swap x y ys)
    · rw [if_neg h]

theorem insertDesc_sorted (x : RawUserRepo) (l : List RawUserRepo)
    (h : l.Pairwise (fun a b => rStars b ≤ rStars a)) :
    (insertDesc x l).Pairwise (fun a b => rStars b ≤ rStars a) := by
  induction l with
  | nil => simp [insertDesc]
  | cons y ys ih =>
    rcases List.pairwise_cons.1 h with ⟨hy, hys⟩
    simp only [insertDesc]
    by_cases hle : rStars x ≤ rStars y
    · rw [if_pos hle]
      refine List.pairwise_cons.2 ⟨?_, ih hys⟩
      intro z hz
      rcases List.mem_cons.1 ((insertDesc_perm x ys).mem_iff.1 hz) with rfl | hzys
      · exact hle
      · exact hy z hzys
    · rw [if_neg hle]
      push_neg at hle
      refine List.pairwise_cons.2 ⟨?_, h⟩
      intro z hz
      rcases List.mem_cons.1 hz with rfl | hzys
      · exact le_of_lt hle
      · exact le_trans (hy z hzys) (le_of_lt hle)

theorem insertDesc_filter (x : RawUserRepo) (l : List RawUserRepo) (k : Int)
    (h : l.Pairwise (fun a b => rStars b ≤ rStars a)) :
    (insertDesc x l).filter (fun r => rStars r == k)
      = l.filter (fun r => rStars r == k)
        ++ (if rStars x == k then [x] else []) := by
  induction l with
  | nil =>
    by_cases hx : (rStars x == k) = true <;> simp [insertDesc, List.filter, hx]
  | cons y ys ih =>
    rcases List.pairwise_cons.1 h with ⟨hy, hys⟩
    simp only [insertDesc]
    by_cases hle : rStars x ≤ rStars y
    · rw [if_pos hle, List.filter_cons, List.filter_cons, ih hys]
      by_cases hpy : (rStars y == k) = true <;> simp [hpy]
    · rw [if_neg hle]
      push_neg at hle
      by_cases hpx : (rStars x == k) = true
      · have hxk : rStars x = k := beq_iff_eq.1 hpx
        have hempty : (y :: ys).filter (fun r => rStars r == k) = [] := by
          rw [List.filter_eq_nil_iff]
          intro a ha
          have hak : rStars a ≤ rStars y := by
            rcases List.mem_cons.1 ha with rfl | hays
            · exact le_refl _
            · exact hy a hays
          simp only [beq_iff_eq]
          omega
        rw [List.filter_cons, hempty]
        simp [hpx]
      · rw [List.filter_cons]
        simp [hpx]

theorem sortAux_perm : ∀ (xs acc : List RawUserRepo),
    (sortAux xs acc).Perm (acc ++ xs) := by
  intro xs
  induction xs with
  | nil => intro acc; simp [sortAux]
  | cons x xs ih =>
    intro acc
    have h1 := ih (insertDesc x acc)
    have h2 : (insertDesc x acc ++ xs).Perm ((x :: acc) ++ xs) :=
      (insertDesc_perm x acc).append_right xs
    have h3 : ((x :: acc) ++ xs).Perm (acc ++ x :: xs) := by
      simpa using List.perm_middle.symm
    exact (h1.trans h2).trans h3

theorem sortAux_sorted : ∀ (xs acc : List RawUserRepo),
    acc.Pairwise (fun a b => rStars b ≤ rStars a) →
    (sortAux xs acc).Pairwise (fun a b => rStars b ≤ rStars a) := by
  intro xs
  induction xs with
  | nil => intro acc h; exact h
  | cons x xs ih => intro acc h; exact ih _ (insertDesc_sorted x acc h)

theorem sortAux_filter (k : Int) : ∀ (xs acc : List RawUserRepo),
    acc.Pairwise (fun a b => rStars b ≤ rStars a) →
    (sortAux xs acc).filter (fun r => rStars r == k)
      = acc.filter (fun r => rStars r == k)
        ++ xs.filter (fun r => rStars r == k) := by
  intro xs
  induction xs with
  | nil => intro acc h; simp [sortAux]
  | cons x xs ih =>
    intro acc h
    rw [show sortAux (x :: xs) acc = sortAux xs (insertDesc x acc) from rfl]
    rw [ih _ (insertDesc_sorted x acc h), insertDesc_filter x acc k h,
      List.append_assoc, List.filter_cons]
    by_cases hpx : (rStars x == k) = true <;> simp [hpx]

theorem sortStarsDesc_spec (l : List RawUserRepo) :
    (sortStarsDesc l).Pairwise (fun a b => rStars b ≤ rStars a) ∧
    (sortStarsDesc l).Perm l ∧
    ∀ k : Int, (sortStarsDesc l).filter (fun r => rStars r == k)
      = l.filter (fun r => rStars r == k) := by
  refine ⟨sortAux_sorted l [] (by simp), ?_, ?_⟩
  · simpa using sortAux_perm l []
  · intro k
    simpa using sortAux_filter k l [] (by simp)

/-! ## Claims -/

/-- C1: `GitHubClient.get` computes a wait of `max(0, reset - now)` exactly
when the remaining quota is below 5 and suspends only for a positive such
wait; with remaining = 3 and reset = now + 10 the wait is 10 (hence within
[0, 10]); with remaining = 50 the wait is 0 and no suspension occurs. -/
theorem rate_governor_spec (h : RateHeaders) (now : Int) :
    (readRemaining h < 5 → rateWait h now = max 0 (readReset h - now)) ∧
    (5 ≤ readRemaining h → rateWait h now = 0 ∧ rateSleeps h now = false) ∧
    (h.remaining = some 3 → h.reset = some (now + 10) →
      0 ≤ rateWait h now ∧ rateWait h now ≤ 10) ∧
    (h.remaining = some 50 → rateWait h now = 0 ∧ rateSleeps h now = false) := by
  refine ⟨?_, ?_, ?_, ?_⟩
  · intro hlt
    simp [rateWait, hlt]
  · intro hge
    have hnot : ¬ readRemaining h < 5 := by omega
    simp [rateWait, rateSleeps, hnot]
  · intro hrem hreset
    have h3 : readRemaining h = 3 := by simp [readRemaining, hrem]
    have h10 : readReset h = now + 10 := by simp [readReset, hreset]
    have hlt : readRemaining h < 5 := by omega
    simp only [rateWait, if_pos hlt, h10]
    omega
  · intro hrem
    have h50 : readRemaining h = 50 := by simp [readRemaining, hrem]
    have hnot : ¬ readRemaining h < 5 := by omega
    simp [rateWait, rateSleeps, hnot]

/-- C1 witness: the two concrete scenarios of the claim. -/
theorem rate_governor_spec_witness :
    (0 ≤ rateWait ⟨some 3, some 10⟩ 0 ∧ rateWait ⟨some 3, some 10⟩ 0 ≤ 10) ∧
    rateWait ⟨some 50, some 0⟩ 0 = 0 ∧ rateSleeps ⟨some 50, some 0⟩ 0 = false :=
  ⟨(rate_governor_spec ⟨some 3, some 10⟩ 0).2.2.1 rfl (by decide),
   (rate_governor_spec ⟨some 50, some 0⟩ 0).2.2.2 rfl⟩

/-- C4: `get_repo_full` yields a composite only when all four sub-fetches
succeed; any sub-fetch error makes the whole aggregate fail, and in
particular a contributor-listing failure with HTTP 500 after a successful
repository fetch propagates as that error. -/
theorem get_repo_full_abort {ρ γ ι lng : Type}
    (fr : Except ScrapeError ρ) (fc : Except ScrapeError γ)
    (fi : Except ScrapeError ι) (fl : Except ScrapeError lng) :
    (((∃ e, fr = .error e) ∨ (∃ e, fc = .error e) ∨
      (∃ e, fi = .error e) ∨ (∃ e, fl = .error e)) →
      ∃ e, get_repo_full fr fc fi fl = .error e) ∧
    (∀ r, fr = .ok r → fc = .error (.httpError 500) →
      get_repo_full fr fc fi fl = .error (.httpError 500)) ∧
    (∀ c, get_repo_full fr fc fi fl = .ok c →
      (∃ r, fr = .ok r) ∧ (∃ cs, fc = .ok cs) ∧
      (∃ is, fi = .ok is) ∧ (∃ ls, fl = .ok ls)) := by
  have hthird : ∀ c, get_repo_full fr fc fi fl = .ok c →
      (∃ r, fr = .ok r) ∧ (∃ cs, fc = .ok cs) ∧
      (∃ is, fi = .ok is) ∧ (∃ ls, fl = .ok ls) := by
    cases fr <;> cases fc <;> cases fi <;> cases fl <;> intro c hc <;>
      first
        | exact Except.noConfusion hc
        | exact ⟨⟨_, rfl⟩, ⟨_, rfl⟩, ⟨_, rfl⟩, ⟨_, rfl⟩⟩
  refine ⟨?_, ?_, hthird⟩
  · intro hor
    cases hres : get_repo_full fr fc fi fl with
    | error e => exact ⟨e, rfl⟩
    | ok c =>
      exfalso
      obtain ⟨⟨r, hr⟩, ⟨cs, hcs⟩, ⟨is, his⟩, ⟨ls, hls⟩⟩ := hthird c hres
      rcases hor with ⟨e, he⟩ | ⟨e, he⟩ | ⟨e, he⟩ | ⟨e, he⟩ <;>
        simp_all
  · intro r hr hc
    subst hr; subst hc
    rfl

/-- C4 witness: repository fetch succeeded, contributor listing failed with
HTTP 500 — the aggregate fails with that error. -/
theorem get_repo_full_abort_witness :
    get_repo_full (Except.ok 1 : Except ScrapeError Nat)
      (Except.error (.httpError 500) : Except ScrapeError Nat)
      (Except.ok 2 : Except ScrapeError Nat)
      (Except.ok 3 : Except ScrapeError Nat)
      = .error (.httpError 500) :=
  (get_repo_full_abort (Except.ok 1 : Except ScrapeError Nat)
    (Except.error (.httpError 500) : Except ScrapeError Nat)
    (Except.ok 2 : Except ScrapeError Nat)
    (Except.ok 3 : Except ScrapeError Nat)).2.1 1 rfl rfl

/-- C7: `GitHubScraper.get_repo` maps the spec's react payload to a record with
stars 220000, language JavaScript, topics [ui, react] and the default
`None` license; absent optional fields generally map to their documented
defaults (language → none, license → none, topics → [], counts → 0). -/
theorem get_repo_mapper_spec (o : String) (d : GitHubScraper.RawRepoData) :
    (GitHubScraper.get_repo "facebook" GitHubScraper.reactPayload).stars = 220000 ∧
    (GitHubScraper.get_repo "facebook" GitHubScraper.reactPayload).language = some "JavaScript" ∧
    (GitHubScraper.get_repo "facebook" GitHubScraper.reactPayload).topics = ["ui", "react"] ∧
    (GitHubScraper.get_repo "facebook" GitHubScraper.reactPayload).license = none ∧
    (GitHubScraper.get_repo "facebook" GitHubScraper.reactPayload).name = "react" ∧
    (GitHubScraper.get_repo "facebook" GitHubScraper.reactPayload).full_name = "facebook/react" ∧
    (d.language = none → (GitHubScraper.get_repo o d).language = none) ∧
    (d.license = none → (GitHubScraper.get_repo o d).license = none) ∧
    (d.topics = none → (GitHubScraper.get_repo o d).topics = []) ∧
    (d.stargazers_count = none → (GitHubScraper.get_repo o d).stars = 0) := by
  refine ⟨rfl, rfl, rfl, rfl, rfl, rfl, ?_, ?_, ?_, ?_⟩ <;>
    intro hnone <;> simp [GitHubScraper.get_repo, hnone]

/-- C7 witness: a payload with every optional field absent gets the
documented defaults. -/
theorem get_repo_mapper_spec_witness :
    (GitHubScraper.get_repo "x" GitHubScraper.emptyPayload).language = none ∧
    (GitHubScraper.get_repo "x" GitHubScraper.emptyPayload).license = none ∧
    (GitHubScraper.get_repo "x" GitHubScraper.emptyPayload).topics = [] ∧
    (GitHubScraper.get_repo "x" GitHubScraper.emptyPayload).stars = 0 :=
  ⟨(get_repo_mapper_spec "x" GitHubScraper.emptyPayload).2.2.2.2.2.2.1 rfl,
   (get_repo_mapper_spec "x" GitHubScraper.emptyPayload).2.2.2.2.2.2.2.1 rfl,
   (get_repo_mapper_spec "x" GitHubScraper.emptyPayload).2.2.2.2.2.2.2.2.1 rfl,
   (get_repo_mapper_spec "x" GitHubScraper.emptyPayload).2.2.2.2.2.2.2.2.2 rfl⟩

/-- C9 counterexample: a payload carrying `stargazers_count = -5` is copied
through unchecked, so the constructed record violates non-negativity. -/
theorem get_repo_negative_stars :
    (GitHubScraper.get_repo "o" GitHubScraper.negStarsPayload).stars = -5 ∧
    ¬ 0 ≤ (GitHubScraper.get_repo "o" GitHubScraper.negStarsPayload).stars := by
  constructor <;> decide

/-- C9 (amended): whenever every count field present in the payload is
non-negative (absent counts default to 0), the constructed record's star,
fork, watcher and open-issue counts are non-negative. -/
theorem get_repo_counts_nonneg (o : String) (d : GitHubScraper.RawRepoData)
    (hs : ∀ x ∈ d.stargazers_count, 0 ≤ x)
    (hf : ∀ x ∈ d.forks_count, 0 ≤ x)
    (hw : ∀ x ∈ d.watchers_count, 0 ≤ x)
    (hoi : ∀ x ∈ d.open_issues_count, 0 ≤ x) :
    0 ≤ (GitHubScraper.get_repo o d).stars ∧ 0 ≤ (GitHubScraper.get_repo o d).forks ∧
    0 ≤ (GitHubScraper.get_repo o d).watchers ∧ 0 ≤ (GitHubScraper.get_repo o d).open_issues :=
  ⟨optGetD_nonneg hs, optGetD_nonneg hf, optGetD_nonneg hw, optGetD_nonneg hoi⟩

/-- C9 witness: the react payload's counts are non-negative, hence so are
the record's. -/
theorem get_repo_counts_nonneg_witness :
    0 ≤ (GitHubScraper.get_repo "facebook" GitHubScraper.reactPayload).stars ∧
    0 ≤ (GitHubScraper.get_repo "facebook" GitHubScraper.reactPayload).forks ∧
    0 ≤ (GitHubScraper.get_repo "facebook" GitHubScraper.reactPayload).watchers ∧
    0 ≤ (GitHubScraper.get_repo "facebook" GitHubScraper.reactPayload).open_issues :=
  get_repo_counts_nonneg "facebook" GitHubScraper.reactPayload
    (by intro x hx; simp [GitHubScraper.reactPayload] at hx; omega)
    (by intro x hx; simp [GitHubScraper.reactPayload] at hx)
    (by intro x hx; simp [GitHubScraper.reactPayload] at hx)
    (by intro x hx; simp [GitHubScraper.reactPayload] at hx)

/-- C10: `scrape_repo` splits `full_name` on `/` before any network
activity: when the string does not contain exactly one slash the unpacking
raises `ValueError` and the fetch is never consulted; with exactly one
slash the split yields the two parts handed to `GitHubScraper.get_repo`. -/
theorem scrape_repo_split_spec {ρ : Type}
    (fetch : String → String → Except ScrapeError ρ) (s : String) :
    (s.data.count '/' ≠ 1 → scrape_repo fetch s = .error .valueError) ∧
    (s.data.count '/' = 1 →
      ∃ o r, pySplitSlash s = [o, r] ∧ scrape_repo fetch s = fetch o r) := by
  have hlen : (pySplitSlash s).length = s.data.count '/' + 1 := by
    simp [pySplitSlash, splitSlash_length]
  constructor
  · intro hne
    unfold scrape_repo
    cases hsplit : pySplitSlash s with
    | nil => rfl
    | cons a t =>
      cases t with
      | nil => rfl
      | cons b t2 =>
        cases t2 with
        | nil =>
          rw [hsplit] at hlen
          simp at hlen
          omega
        | cons c t3 => rfl
  · intro h1
    rw [h1] at hlen
    cases hsplit : pySplitSlash s with
    | nil => rw [hsplit] at hlen; simp at hlen
    | cons a t =>
      cases t with
      | nil => rw [hsplit] at hlen; simp at hlen
      | cons b t2 =>
        cases t2 with
        | nil =>
          refine ⟨a, b, rfl, ?_⟩
          unfold scrape_repo
          rw [hsplit]
        | cons c t3 => rw [hsplit] at hlen; simp at hlen

/-- Unfolding equations of `get_issues` at a cons cell. -/
theorem get_issues_cons_pr {i : GitHubScraper.RawIssue}
    {rest : List GitHubScraper.RawIssue} (hpr : GitHubScraper.isPR i = true) :
    GitHubScraper.get_issues (i :: rest) = GitHubScraper.get_issues rest := by
  simp [GitHubScraper.get_issues, hpr]

theorem get_issues_cons_not_pr {i : GitHubScraper.RawIssue}
    {rest : List GitHubScraper.RawIssue} (hpr : GitHubScraper.isPR i = false) :
    GitHubScraper.get_issues (i :: rest)
      = match GitHubScraper.mapIssue i with
        | .error e => .error e
        | .ok r =>
          match GitHubScraper.get_issues rest with
          | .error e => .error e
          | .ok rs => .ok (r :: rs) := by
  simp [GitHubScraper.get_issues, hpr]

/-- C5: `get_issues` maps no item carrying a pull-request marker (the walk
over the raw list is the walk over its non-PR sublist), and whenever it
produces a list its length is the raw count minus the PR-marked count. -/
theorem get_issues_pr_filter (raw : List GitHubScraper.RawIssue) :
    GitHubScraper.get_issues raw
      = GitHubScraper.get_issues (raw.filter (fun i => !GitHubScraper.isPR i)) ∧
    ∀ out, GitHubScraper.get_issues raw = .ok out →
      out.length + raw.countP GitHubScraper.isPR = raw.length ∧
      out.length = raw.length - raw.countP GitHubScraper.isPR := by
  induction raw with
  | nil =>
    refine ⟨rfl, ?_⟩
    intro out h
    injection h with h'
    subst h'
    simp
  | cons i rest ih =>
    by_cases hpr : GitHubScraper.isPR i = true
    · constructor
      · rw [get_issues_cons_pr hpr]
        have hf : (i :: rest).filter (fun j => !GitHubScraper.isPR j)
            = rest.filter (fun j => !GitHubScraper.isPR j) := by
          simp [List.filter_cons, hpr]
        rw [hf]
        exact ih.1
      · intro out hout
        rw [get_issues_cons_pr hpr] at hout
        obtain ⟨h1, h2⟩ := ih.2 out hout
        have hcount : (i :: rest).countP GitHubScraper.isPR
            = rest.countP GitHubScraper.isPR + 1 := by
          simp [List.countP_cons, hpr]
        rw [hcount]
        simp only [List.length_cons]
        omega
    · rw [Bool.not_eq_true] at hpr
      constructor
      · rw [get_issues_cons_not_pr hpr]
        have hf : (i :: rest).filter (fun j => !GitHubScraper.isPR j)
            = i :: rest.filter (fun j => !GitHubScraper.isPR j) := by
          simp [List.filter_cons, hpr]
        rw [hf, get_issues_cons_not_pr hpr, ih.1]
      · intro out hout
        rw [get_issues_cons_not_pr hpr] at hout
        cases hm : GitHubScraper.mapIssue i with
        | error e => rw [hm] at hout; exact Except.noConfusion hout
        | ok r =>
          rw [hm] at hout
          cases hrest : GitHubScraper.get_issues rest with
          | error e => rw [hrest] at hout; exact Except.noConfusion hout
          | ok rs =>
            rw [hrest] at hout
            injection hout with h'
            subst h'
            obtain ⟨h1, h2⟩ := ih.2 rs hrest
            have hcount : (i :: rest).countP GitHubScraper.isPR
                = rest.countP GitHubScraper.isPR := by
              simp [List.countP_cons, hpr]
            rw [hcount]
            simp only [List.length_cons]
            omega

/-- C5 witness: a PR-marked item followed by a plain item yields exactly
one record; `1 + 1 = 2` instantiates the cardinality invariant. -/
theorem get_issues_pr_filter_witness :
    ([⟨0, "", "", "", "", none, [], 0⟩] : List GitHubScraper.Issue).length
        + [GitHubScraper.prIssue, GitHubScraper.allAbsentIssue].countP GitHubScraper.isPR
        = [GitHubScraper.prIssue, GitHubScraper.allAbsentIssue].length ∧
    ([⟨0, "", "", "", "", none, [], 0⟩] : List GitHubScraper.Issue).length
        = [GitHubScraper.prIssue, GitHubScraper.allAbsentIssue].length
          - [GitHubScraper.prIssue, GitHubScraper.allAbsentIssue].countP GitHubScraper.isPR :=
  (get_issues_pr_filter [GitHubScraper.prIssue, GitHubScraper.allAbsentIssue]).2
    [⟨0, "", "", "", "", none, [], 0⟩] rfl

/-- C8 counterexample: an item supplying its `user` field in an unexpected
shape (present but null) makes the mapper raise `AttributeError`, so the
listing walk aborts and even the well-formed sibling yields no record —
refuting the claim that a malformed item never raises and never aborts
siblings. -/
theorem issue_mapping_null_aborts :
    GitHubScraper.get_issues [GitHubScraper.allAbsentIssue, GitHubScraper.nullUserIssue]
      = .error .attributeError ∧
    GitHubScraper.mapIssue GitHubScraper.nullUserIssue = .error .attributeError ∧
    GitHubScraper.mapIssue GitHubScraper.allAbsentIssue
      = .ok ⟨0, "", "", "", "", none, [], 0⟩ ∧
    GitHubScraper.isPR GitHubScraper.nullUserIssue = false :=
  ⟨rfl, rfl, rfl, rfl⟩

/-- C8 (amended): items that merely *omit* fields are mapped using the
documented default for every absent field and never abort their siblings:
a listing of such items always maps to `ok`, contributor for contributor,
and the all-absent item maps to the all-defaults record. -/
theorem mapper_defaults_spec (rawC : List GitHubScraper.RawContributor)
    (rawI : List GitHubScraper.RawIssue)
    (hc : ∀ c ∈ rawC, GitHubScraper.benignContributor c = true)
    (hi : ∀ i ∈ rawI, GitHubScraper.isPR i = true ∨ GitHubScraper.benignIssue i = true) :
    (∃ out, GitHubScraper.get_contributors rawC = .ok out ∧ out.length = rawC.length) ∧
    (∃ out, GitHubScraper.get_issues rawI = .ok out) ∧
    GitHubScraper.mapContributor ⟨.absent, .absent, .absent, .absent⟩ = .ok ⟨"", "", 0, ""⟩ ∧
    GitHubScraper.mapIssue GitHubScraper.allAbsentIssue
      = .ok ⟨0, "", "", "", "", none, [], 0⟩ := by
  refine ⟨?_, get_issues_all_ok hi, rfl, rfl⟩
  obtain ⟨out, hout, hlen⟩ := get_contributors_all_ok hc
  exact ⟨out, hout, hlen⟩

/-- C8 witness: a contributor omitting everything but its login, and an
issue listing of a PR marker plus an all-absent item, all map cleanly. -/
theorem mapper_defaults_spec_witness :
    (∃ out, GitHubScraper.get_contributors
        [⟨.val "alice", .absent, .absent, .absent⟩] = .ok out ∧
      out.length = ([⟨.val "alice", .absent, .absent, .absent⟩]
          : List GitHubScraper.RawContributor).length) ∧
    (∃ out, GitHubScraper.get_issues
        [GitHubScraper.prIssue, GitHubScraper.allAbsentIssue] = .ok out) ∧
    GitHubScraper.mapContributor ⟨.absent, .absent, .absent, .absent⟩ = .ok ⟨"", "", 0, ""⟩ ∧
    GitHubScraper.mapIssue GitHubScraper.allAbsentIssue
      = .ok ⟨0, "", "", "", "", none, [], 0⟩ :=
  mapper_defaults_spec [⟨.val "alice", .absent, .absent, .absent⟩]
    [GitHubScraper.prIssue, GitHubScraper.allAbsentIssue]
    (by decide) (by decide)

/-- C10 witness: `"react"` (no slash) and `"a/b/c"` (two slashes) both
raise `ValueError` before any fetch; `"facebook/react"` reaches the fetch
with the two parts. -/
theorem scrape_repo_split_spec_witness :
    scrape_repo (fun _ _ => .ok (0 : Nat)) "react" = .error .valueError ∧
    scrape_repo (fun _ _ => .ok (0 : Nat)) "a/b/c" = .error .valueError :=
  ⟨(scrape_repo_split_spec (fun _ _ => .ok (0 : Nat)) "react").1 (by decide),
   (scrape_repo_split_spec (fun _ _ => .ok (0 : Nat)) "a/b/c").1 (by decide)⟩

set_option maxRecDepth 8192 in
/-- C2 counterexample: `get_user_repos` issues its second page request with
`per_page = 100`, not `min(100, cap - accumulated) = 40`, and against a
server whose second page holds 100 items it accumulates 160 > 100 = cap
items. -/
theorem get_user_repos_fixed_per_page_cex :
    (get_user_repos overshootRespond).2
      = [⟨1, 100, 0⟩, ⟨2, 100, 60⟩] ∧
    (100 : Nat) ≠ min 100 (100 - 60) ∧
    (get_user_repos overshootRespond).1.length = 160 := by
  refine ⟨by decide, by decide, by decide⟩

/-- C2 (amended): `search_repos` issues every page request with
`per_page = min(100, cap - accumulated)` and, whenever the server never
returns more items than requested, accumulates at most `cap` items;
`get_user_repos` and `get_contributors` instead issue every page request
with the fixed `per_page = 100`. -/
theorem pagination_request_sizes {α : Type} (respond : Nat → Nat → List α)
    (cap : Nat) (hresp : ∀ pp pg, (respond pp pg).length ≤ pp) :
    (∀ r ∈ (search_repos respond cap).2, r.perPage = min 100 (cap - r.accBefore)) ∧
    (search_repos respond cap).1.length ≤ cap ∧
    (∀ r ∈ (get_user_repos respond).2, r.perPage = 100) ∧
    (∀ r ∈ (get_contributors respond).2, r.perPage = 100) :=
  ⟨searchReposGo_log respond cap (cap + 1) [] 1,
   searchReposGo_len respond cap hresp (cap + 1) [] 1 (by simp),
   fixedPageGo_log respond 100 (100 + 1) [] 1,
   fixedPageGo_log respond 100 (100 + 1) [] 1⟩

/-- C2 witness: against a server that honors the requested page size, the
request-size law and the cap bound hold at cap = 100. -/
theorem pagination_request_sizes_witness :
    (∀ r ∈ (search_repos boundedRespond 100).2,
      r.perPage = min 100 (100 - r.accBefore)) ∧
    (search_repos boundedRespond 100).1.length ≤ 100 ∧
    (∀ r ∈ (get_user_repos boundedRespond).2, r.perPage = 100) ∧
    (∀ r ∈ (get_contributors boundedRespond).2, r.perPage = 100) :=
  pagination_request_sizes boundedRespond 100
    (by
      intro pp pg
      unfold boundedRespond
      split
      · simp
      · simp)

/-- C3 counterexample: a first contributor page of 60 items (0 < 60 < the
requested 100) does not end the walk after one request — `get_contributors`
issues a second page request and stops only on the empty second page. -/
theorem get_contributors_short_page_cex :
    0 < (shortPageRespond 100 1).length ∧
    (shortPageRespond 100 1).length < 100 ∧
    (get_contributors shortPageRespond).2.length = 2 ∧
    (get_contributors shortPageRespond).1.length = 60 := by
  refine ⟨by decide, by decide, rfl, rfl⟩

/-- C3 (amended): on a short non-empty first page, `search_repos`
terminates after exactly one page request with the page's `n` items; the
fixed-`per_page` walks (`get_contributors`, `get_user_repos`) issue one
more request and terminate once that second page is empty, with the
accumulated count still `n`. -/
theorem pagination_short_page {α : Type} (respond : Nat → Nat → List α) (cap : Nat) :
    (0 < cap → 0 < (respond (min 100 cap) 1).length →
      (respond (min 100 cap) 1).length < min 100 cap →
      (search_repos respond cap).2.length = 1 ∧
      (search_repos respond cap).1.length = (respond (min 100 cap) 1).length) ∧
    (0 < (respond 100 1).length → (respond 100 1).length < 100 →
      respond 100 2 = [] →
      ((get_contributors respond).2.length = 2 ∧
        (get_contributors respond).1.length = (respond 100 1).length) ∧
      ((get_user_repos respond).2.length = 2 ∧
        (get_user_repos respond).1.length = (respond 100 1).length)) := by
  constructor
  · intro hcap hn hshort
    have h100 : (respond (min 100 cap) 1).length < 100 :=
      lt_of_lt_of_le hshort (min_le_left _ _)
    have hne : (respond (min 100 cap) 1).isEmpty = false := by
      cases hr : respond (min 100 cap) 1 with
      | nil => rw [hr] at hn; simp at hn
      | cons a l => simp
    simp [search_repos, searchReposGo, hcap, hne, h100, Nat.sub_zero]
  · intro hn h100 hempty2
    have hne : (respond 100 1).isEmpty = false := by
      cases hr : respond 100 1 with
      | nil => rw [hr] at hn; simp at hn
      | cons a l => simp
    have h2 := fixedPageGo_two_pages respond 100 99 1 ([] : List α)
      (by simp) hne (by simpa using h100) (by simp [hempty2])
    have hgc : get_contributors respond
        = ([] ++ respond 100 1,
           [⟨1, 100, (([] : List α)).length⟩,
            ⟨1 + 1, 100, (([] : List α) ++ respond 100 1).length⟩]) := h2
    have hgu : get_user_repos respond
        = ([] ++ respond 100 1,
           [⟨1, 100, (([] : List α)).length⟩,
            ⟨1 + 1, 100, (([] : List α) ++ respond 100 1).length⟩]) := h2
    constructor
    · rw [hgc]; simp
    · rw [hgu]; simp

/-- C3 witness: the short-page scenario at cap = 100, first page of 60
items, second page empty. -/
theorem pagination_short_page_witness :
    ((search_repos shortPageRespond 100).2.length = 1 ∧
      (search_repos shortPageRespond 100).1.length
        = (shortPageRespond (min 100 100) 1).length) ∧
    ((get_contributors shortPageRespond).2.length = 2 ∧
      (get_contributors shortPageRespond).1.length = (shortPageRespond 100 1).length) ∧
    ((get_user_repos shortPageRespond).2.length = 2 ∧
      (get_user_repos shortPageRespond).1.length = (shortPageRespond 100 1).length) :=
  ⟨(pagination_short_page shortPageRespond 100).1 (by decide) (by decide) (by decide),
   (pagination_short_page shortPageRespond 100).2 (by decide) (by decide) (by decide)⟩

/-- C6: `analyze_user` computes total stars and total forks as the sums of
the repos' (defaulted) star and fork counts, a language histogram counting
repos per (truthy) primary language with language-less repos excluded, and
`top_repos` as the first 10 of the stable descending-by-stars ordering of
the listing: sorted by star key, a permutation of the input, and — for
every star value — keeping the tied repos in original listing order. -/
theorem analyze_user_spec (username : String) (user : UserProfile)
    (repos : List RawUserRepo) (l : String) (hl : l ≠ "") :
    (analyze_user username user repos).total_stars = (repos.map rStars).sum ∧
    (analyze_user username user repos).total_forks = (repos.map rForks).sum ∧
    histCount (analyze_user username user repos).languages l
      = repos.countP (fun r => r.language == some l) ∧
    (analyze_user username user repos).top_repos = (sortStarsDesc repos).take 10 ∧
    (analyze_user username user repos).top_repos.length ≤ 10 ∧
    (sortStarsDesc repos).Pairwise (fun a b => rStars b ≤ rStars a) ∧
    (sortStarsDesc repos).Perm repos ∧
    (∀ k : Int, (sortStarsDesc repos).filter (fun r => rStars r == k)
      = repos.filter (fun r => rStars r == k)) := by
  obtain ⟨hsorted, hperm, hfilter⟩ := sortStarsDesc_spec repos
  refine ⟨rfl, rfl, ?_, rfl, ?_, hsorted, hperm, hfilter⟩
  · simpa [analyze_user, histCount] using histCount_buildLanguages repos l hl []
  · exact List.length_take_le 10 (sortStarsDesc repos)

/-- C6 witness: the spec's end-to-end user scenario — star counts
[10, 5, 0], languages [Go, Go, none] — yields total stars 15 and a
histogram counting 2 Go repos (matching the general count law at
l = Go). -/
theorem analyze_user_spec_witness :
    (analyze_user "dev" sampleUser sampleRepos).total_stars = 15 ∧
    histCount (analyze_user "dev" sampleUser sampleRepos).languages "Go" = 2 ∧
    histCount (analyze_user "dev" sampleUser sampleRepos).languages "Go"
      = sampleRepos.countP (fun r => r.language == some "Go") ∧
    (analyze_user "dev" sampleUser sampleRepos).total_forks = 0 :=
  ⟨by decide, by decide,
   (analyze_user_spec "dev" sampleUser sampleRepos "Go" (by decide)).2.2.1,
   by decide⟩

end GitHubIntel
